import Mathlib

/-!
Verification of the run-execution orchestrator in `src/agent_server/api/runs.py`.

The embedding models the dynamic (Python) values flowing through the event
loop as a small inductive type `PyVal`, translates the pure logic of the
module (event skipping, event-id minting, interrupt detection, final-output
tracking, stream-mode normalization, status-update value construction) as
computable Lean functions, and models the stateful endpoint handlers
(`create_run`, `create_and_stream_run`, `stream_run`, `cancel_run_endpoint`,
`delete_run`, `get_run`) as explicit state-passing functions over an
in-memory database of Thread/Run records plus the `active_runs` task
registry.  External collaborators (the LangGraph service, the streaming
service, the serializer) are either parameters or are recorded as effects in
the result structures.
-/

namespace Aegra

/-- Dynamic Python values as they appear in engine events and run payloads:
`None`, strings, tuples, lists, string-keyed dicts, and opaque objects. -/
inductive PyVal where
  | none
  | str (s : String)
  | tuple (items : List PyVal)
  | pylist (items : List PyVal)
  | dict (entries : List (String × PyVal))
  | obj (tag : String)

/-- Python truthiness for the values of `PyVal` (used by `x or {}` idioms):
`None`, empty strings and empty containers are falsy; opaque objects are
truthy by default. -/
def PyVal.truthy : PyVal → Bool
  | .none => false
  | .str s => !s.isEmpty
  | .tuple items => !items.isEmpty
  | .pylist items => !items.isEmpty
  | .dict entries => !entries.isEmpty
  | .obj _ => true

/-- Python dict lookup `d.get(k)` / `d[k]` on a string-keyed dict, returning
the first binding of the key. -/
def lookupKey (k : String) : List (String × PyVal) → Option PyVal
  | [] => Option.none
  | (k₂, v) :: rest => if k₂ = k then some v else lookupKey k rest

/-- Python truthiness default to the empty dict, as in the source's
idioms applying `or` to `final_output` and to `request.input`. -/
def pyOrEmptyDict (v : Option PyVal) : PyVal :=
  match v with
  | some v => if v.truthy then v else PyVal.dict []
  | Option.none => PyVal.dict []

/-- Translation of `_should_skip_event` (runs.py lines 696-713): a raw event
is skipped when it is a tuple of length at least 2 whose last element is a
tuple of length at least 2 whose second item is a dict with a `tags` list
containing the string `langsmith:nostream`.  The structural `try/except`
falls back to `False`, which in this total model is the wildcard case. -/
def _should_skip_event (raw : PyVal) : Bool :=
  match raw with
  | PyVal.tuple items =>
    if 2 ≤ items.length then
      match items.getLast? with
      | some (PyVal.tuple meta) =>
        if 2 ≤ meta.length then
          match meta.get? 1 with
          | some (PyVal.dict md) =>
            match lookupKey "tags" md with
            | some (PyVal.pylist tags) =>
              tags.any fun t =>
                match t with
                | PyVal.str s => s = "langsmith:nostream"
                | _ => false
            | _ => false
          | _ => false
        else false
      | _ => false
    else false
  | _ => false

/-- Event-id minting from runs.py line 825: the id is the string
`run_id ++ "_event_" ++ n` for the current value `n` of the per-run
counter. -/
def mkEventId (run_id : String) (n : Nat) : String :=
  run_id ++ "_event_" ++ toString n

/-- The `event_data` extraction of runs.py lines 843-847: for a tuple of
length at least 2 the second element, for a non-tuple the event itself,
otherwise `None` (modelled as `Option.none`). -/
def eventData? (raw : PyVal) : Option PyVal :=
  match raw with
  | PyVal.tuple items => if 2 ≤ items.length then items.get? 1 else Option.none
  | r => some r

/-- The interrupt check of runs.py line 849: the extracted event data is a
dict containing the key `__interrupt__`. -/
def eventHasInterrupt (raw : PyVal) : Bool :=
  match eventData? raw with
  | some (PyVal.dict entries) => (lookupKey "__interrupt__" entries).isSome
  | _ => false

/-- Final-output tracking from runs.py lines 852-858: a tuple whose first
element is the string `values` (and which has a second element) replaces the
tracked output with that second element; any other tuple leaves it
unchanged; a non-tuple event replaces it with the event itself. -/
def trackFinalOutput (fo : Option PyVal) (raw : PyVal) : Option PyVal :=
  match raw with
  | PyVal.tuple items =>
    match items with
    | PyVal.str m :: snd :: _ => if m = "values" then some snd else fo
    | _ => fo
  | r => some r

/-- Accumulated state of the event loop of `execute_run_async`
(runs.py lines 791-858): the event counter, the sequences of
(event id, raw event) pairs handed to the Event Broker and to the Event
Store, the interrupt flag, and the tracked final output. -/
structure LoopState where
  counter : Nat
  brokerPushes : List (String × PyVal)
  storeAppends : List (String × PyVal)
  hasInterrupt : Bool
  finalOutput : Option PyVal

/-- One iteration of the `async for raw_event in graph.astream(...)` loop
(runs.py lines 813-858): skipped events leave the state untouched;
otherwise the counter is incremented, an event id is minted, the event is
pushed to the broker and appended to the store (in that order), the
interrupt flag is updated, and the final output is tracked. -/
def processEvent (run_id : String) (st : LoopState) (raw : PyVal) : LoopState :=
  if _should_skip_event raw then st
  else
    { counter := st.counter + 1
      brokerPushes := st.brokerPushes ++ [(mkEventId run_id (st.counter + 1), raw)]
      storeAppends := st.storeAppends ++ [(mkEventId run_id (st.counter + 1), raw)]
      hasInterrupt := st.hasInterrupt || eventHasInterrupt raw
      finalOutput := trackFinalOutput st.finalOutput raw }

/-- The whole event loop of `execute_run_async` over a list of raw engine
events, starting from counter 0, no pushes, no interrupt, no output. -/
def processEvents (run_id : String) (events : List PyVal) : LoopState :=
  events.foldl (processEvent run_id) ⟨0, [], [], false, Option.none⟩

/-- Consecutive event-id stamping: pair the events of a list with the ids
`mkEventId run_id start`, `mkEventId run_id (start+1)`, ... in order. -/
def idStamp (run_id : String) (start : Nat) : List PyVal → List (String × PyVal)
  | [] => []
  | e :: es => (mkEventId run_id start, e) :: idStamp run_id (start + 1) es

theorem processEvents_foldl (run_id : String) (events : List PyVal) (st : LoopState) :
    (events.foldl (processEvent run_id) st).counter
        = st.counter + (events.filter fun e => !_should_skip_event e).length ∧
    (events.foldl (processEvent run_id) st).brokerPushes
        = st.brokerPushes ++ idStamp run_id (st.counter + 1)
            (events.filter fun e => !_should_skip_event e) ∧
    (events.foldl (processEvent run_id) st).storeAppends
        = st.storeAppends ++ idStamp run_id (st.counter + 1)
            (events.filter fun e => !_should_skip_event e) ∧
    (events.foldl (processEvent run_id) st).hasInterrupt
        = (st.hasInterrupt
            || (events.filter fun e => !_should_skip_event e).any eventHasInterrupt) ∧
    (events.foldl (processEvent run_id) st).finalOutput
        = (events.filter fun e => !_should_skip_event e).foldl trackFinalOutput
            st.finalOutput := by
  induction events generalizing st with
  | nil => simp [idStamp]
  | cons e es ih =>
    by_cases h : _should_skip_event e = true
    · have hstep : processEvent run_id st e = st := by
        simp [processEvent, h]
      simp only [List.foldl_cons, hstep, List.filter_cons, h]
      simpa using ih st
    · have hb : _should_skip_event e = false := by
        simpa using h
      have hstep : processEvent run_id st e =
          { counter := st.counter + 1
            brokerPushes := st.brokerPushes ++ [(mkEventId run_id (st.counter + 1), e)]
            storeAppends := st.storeAppends ++ [(mkEventId run_id (st.counter + 1), e)]
            hasInterrupt := st.hasInterrupt || eventHasInterrupt e
            finalOutput := trackFinalOutput st.finalOutput e } := by
        simp [processEvent, hb]
      obtain ⟨ih1, ih2, ih3, ih4, ih5⟩ := ih
        { counter := st.counter + 1
          brokerPushes := st.brokerPushes ++ [(mkEventId run_id (st.counter + 1), e)]
          storeAppends := st.storeAppends ++ [(mkEventId run_id (st.counter + 1), e)]
          hasInterrupt := st.hasInterrupt || eventHasInterrupt e
          finalOutput := trackFinalOutput st.finalOutput e }
      refine ⟨?_, ?_, ?_, ?_, ?_⟩
      · simp only [List.foldl_cons, hstep, ih1, List.filter_cons, hb]
        simp [Nat.add_assoc, Nat.add_comm 1]
      · simp only [List.foldl_cons, hstep, ih2, List.filter_cons, hb]
        simp [idStamp, Nat.add_assoc, Nat.add_comm 1]
      · simp only [List.foldl_cons, hstep, ih3, List.filter_cons, hb]
        simp [idStamp, Nat.add_assoc, Nat.add_comm 1]
      · simp only [List.foldl_cons, hstep, ih4, List.filter_cons, hb]
        simp [Bool.or_assoc]
      · simp only [List.foldl_cons, hstep, ih5, List.filter_cons, hb]
        simp

/-- How the engine's event sequence terminates, as observed by
`execute_run_async`:  `exhausted` is a clean end of the `async for` loop;
`cancelledAt k` is an `asyncio.CancelledError` delivered while awaiting the
next engine event after `k` events were consumed; `erroredAt k msg` is any
other exception raised at that point. -/
inductive EngineOutcome where
  | exhausted
  | cancelledAt (k : Nat)
  | erroredAt (k : Nat) (msg : String)

/-- One recorded call to `update_run_status`: the requested status, the raw
(pre-serialization) output argument, and the error argument. -/
structure StatusCall where
  status : String
  output : Option PyVal
  error : Option String

/-- Terminal markers `execute_run_async` sends to the streaming service:
`signal_run_cancelled` or `signal_run_error`. -/
inductive BrokerSignal where
  | cancelled
  | error (msg : String)

/-- How `execute_run_async` itself terminates: a normal return, a re-raised
`CancelledError`, or a re-raised exception. -/
inductive ExecExit where
  | normal
  | cancelled
  | failed (msg : String)

/-- Observable result of one execution of `execute_run_async`
(runs.py lines 716-909): the ordered `update_run_status` calls, the ordered
`set_thread_status` calls on the owning thread, the event-loop state
(broker pushes, store appends, interrupt flag, tracked output), the broker
terminal signals, whether the `finally` block ran `cleanup_run` and removed
the run's entry from `active_runs`, and how the coroutine exited. -/
structure ExecResult where
  statusCalls : List StatusCall
  threadSets : List String
  loop : LoopState
  brokerSignals : List BrokerSignal
  cleanupCalled : Bool
  handleRemoved : Bool
  exitKind : ExecExit

/-- Translation of the control flow of `execute_run_async`
(runs.py lines 750-909) given the list of raw events the engine would
produce and the way the engine's sequence terminates.  The status is first
set to `running`; then the event loop processes the consumed events; on
clean exhaustion the interrupt flag selects the `interrupted`/`completed`
transition (persisting `final_output or` the empty dict) and the matching
thread status; on cancellation the run is set to `cancelled` with empty
output, the thread to `idle`, the broker is signalled, and the cancellation
is re-raised; on any other exception the run is set to `failed` with empty
output and the message, the thread to `idle`, the broker is signalled, and
the exception is re-raised.  The `finally` block always releases the broker
resources and pops the task handle.  The `threadSets` list records the
`set_thread_status` calls on the owning thread (`thread_id` in the
source). -/
def execute_run_async (run_id : String) (events : List PyVal)
    (outcome : EngineOutcome) : ExecResult :=
  match outcome with
  | EngineOutcome.exhausted =>
    let st := processEvents run_id events
    if st.hasInterrupt then
      { statusCalls := [⟨"running", Option.none, Option.none⟩,
          ⟨"interrupted", some (pyOrEmptyDict st.finalOutput), Option.none⟩]
        threadSets := ["interrupted"]
        loop := st
        brokerSignals := []
        cleanupCalled := true
        handleRemoved := true
        exitKind := ExecExit.normal }
    else
      { statusCalls := [⟨"running", Option.none, Option.none⟩,
          ⟨"completed", some (pyOrEmptyDict st.finalOutput), Option.none⟩]
        threadSets := ["idle"]
        loop := st
        brokerSignals := []
        cleanupCalled := true
        handleRemoved := true
        exitKind := ExecExit.normal }
  | EngineOutcome.cancelledAt k =>
    let st := processEvents run_id (events.take k)
    { statusCalls := [⟨"running", Option.none, Option.none⟩,
        ⟨"cancelled", some (PyVal.dict []), Option.none⟩]
      threadSets := ["idle"]
      loop := st
      brokerSignals := [BrokerSignal.cancelled]
      cleanupCalled := true
      handleRemoved := true
      exitKind := ExecExit.cancelled }
  | EngineOutcome.erroredAt k msg =>
    let st := processEvents run_id (events.take k)
    { statusCalls := [⟨"running", Option.none, Option.none⟩,
        ⟨"failed", some (PyVal.dict []), some msg⟩]
      threadSets := ["idle"]
      loop := st
      brokerSignals := [BrokerSignal.error msg]
      cleanupCalled := true
      handleRemoved := true
      exitKind := ExecExit.failed msg }

/-- The events actually consumed from the engine under a given outcome. -/
def consumedEvents (events : List PyVal) : EngineOutcome → List PyVal
  | EngineOutcome.exhausted => events
  | EngineOutcome.cancelledAt k => events.take k
  | EngineOutcome.erroredAt k _ => events.take k

theorem processEvents_spec (run_id : String) (events : List PyVal) :
    (processEvents run_id events).brokerPushes
        = idStamp run_id 1 (events.filter fun e => !_should_skip_event e) ∧
    (processEvents run_id events).storeAppends
        = idStamp run_id 1 (events.filter fun e => !_should_skip_event e) ∧
    (processEvents run_id events).hasInterrupt
        = (events.filter fun e => !_should_skip_event e).any eventHasInterrupt ∧
    (processEvents run_id events).finalOutput
        = (events.filter fun e => !_should_skip_event e).foldl trackFinalOutput
            Option.none := by
  have h := processEvents_foldl run_id events ⟨0, [], [], false, Option.none⟩
  obtain ⟨_, h2, h3, h4, h5⟩ := h
  exact ⟨by simpa using h2, by simpa using h3, by simpa using h4, by simpa using h5⟩

/-- The stream-mode alias canonicalization `_normalize_mode` nested in
`execute_run_async` (runs.py lines 740-748): `messages-tuple` is an alias of
`messages`; every other mode passes through unchanged. -/
def _normalize_mode (mode : String) : String :=
  if mode = "messages-tuple" then "messages" else mode

/-- Mirror of `DEFAULT_STREAM_MODES` (runs.py line 42). -/
def DEFAULT_STREAM_MODES : List String := ["values"]

/-- The `stream_mode` argument of `execute_run_async` as the source accepts
it: `None`, a single string, or a list of strings. -/
inductive StreamModeArg where
  | noneArg
  | one (s : String)
  | many (l : List String)

/-- Translation of the stream-mode preparation of `execute_run_async`
(runs.py lines 745-748 and 796-810): canonicalize aliases, default to
`DEFAULT_STREAM_MODES` when no modes were given, wrap a single string,
force-include `updates` when absent, and return the engine mode list
together with the `only_interrupt_updates` flag (`updates` was not
user-requested). -/
def prepare_stream_modes (stream_mode : StreamModeArg) : List String × Bool :=
  let sm : StreamModeArg :=
    match stream_mode with
    | StreamModeArg.many l => StreamModeArg.many (l.map _normalize_mode)
    | StreamModeArg.one s => StreamModeArg.one (_normalize_mode s)
    | StreamModeArg.noneArg => StreamModeArg.noneArg
  let final_stream_modes : List String :=
    match sm with
    | StreamModeArg.noneArg => DEFAULT_STREAM_MODES
    | StreamModeArg.one s => [s]
    | StreamModeArg.many l => l
  let user_requested_updates := final_stream_modes.contains "updates"
  ((if user_requested_updates then final_stream_modes
    else final_stream_modes ++ ["updates"]),
   !user_requested_updates)

/-- The user-requested modes after canonicalization, default applied,
following the specification text (spec-side definition used to state the
normalization claim against `prepare_stream_modes`). -/
def requestedModes : StreamModeArg → List String
  | StreamModeArg.noneArg => ["values"]
  | StreamModeArg.one s => [if s = "messages-tuple" then "messages" else s]
  | StreamModeArg.many l => l.map fun s => if s = "messages-tuple" then "messages" else s

/-- Model of Python's `str(type(x))` as used in the serialization-failure
diagnostic payload; opaque objects carry their own type name. -/
def pyTypeName : PyVal → String
  | PyVal.none => "NoneType"
  | PyVal.str _ => "str"
  | PyVal.tuple _ => "tuple"
  | PyVal.pylist _ => "list"
  | PyVal.dict _ => "dict"
  | PyVal.obj tag => tag

/-- The column values computed by one `update_run_status` call. -/
structure UpdateValues where
  status : String
  output : Option PyVal
  error_message : Option String

/-- Translation of `update_run_status` (runs.py lines 912-949).  The
serializer (`GeneralSerializer`, an external collaborator) is a parameter
returning `Option.none` when `serialize` raises.  The values dict always
carries the requested status; when an output is given it carries either the
serialized output or, if serialization raised, the diagnostic payload
recording the failure and the original value's type; when an error message
is given it carries it as `error_message`. -/
def update_run_status (serialize : PyVal → Option PyVal) (status : String)
    (output : Option PyVal) (error : Option String) : UpdateValues :=
  let base : UpdateValues :=
    { status := status, output := Option.none, error_message := Option.none }
  let withOutput : UpdateValues :=
    match output with
    | Option.none => base
    | some v =>
      match serialize v with
      | some sv => { base with output := some sv }
      | Option.none =>
        { base with
            output := some (PyVal.dict
              [("error", PyVal.str "Output serialization failed"),
               ("original_type", PyVal.str (pyTypeName v))]) }
  match error with
  | Option.none => withOutput
  | some e => { withOutput with error_message := some e }

/-- C1: for every run executed by `execute_run_async`, whatever way the
engine sequence ends, the events handed to the Event Broker are exactly the
consumed events that are not skipped by `_should_skip_event`, stamped in
production order with the ids `run_id ++ "_event_" ++ n` for n = 1, 2, 3,
... (strictly increasing, no gaps, skipped events consuming no id), and the
Event Store receives exactly the same sequence in the same order. -/
theorem run_event_ids_exact (run_id : String) (events : List PyVal)
    (outcome : EngineOutcome) :
    (execute_run_async run_id events outcome).loop.brokerPushes
        = idStamp run_id 1
            ((consumedEvents events outcome).filter fun e => !_should_skip_event e) ∧
    (execute_run_async run_id events outcome).loop.storeAppends
        = (execute_run_async run_id events outcome).loop.brokerPushes := by
  cases outcome with
  | exhausted =>
    obtain ⟨h1, h2, _, _⟩ := processEvents_spec run_id events
    by_cases h : (processEvents run_id events).hasInterrupt = true
    · simp only [execute_run_async, consumedEvents, h, if_true]
      exact ⟨h1, h2.trans h1.symm⟩
    · simp only [execute_run_async, consumedEvents, h, if_false]
      exact ⟨h1, h2.trans h1.symm⟩
  | cancelledAt k =>
    obtain ⟨h1, h2, _, _⟩ := processEvents_spec run_id (events.take k)
    exact ⟨h1, h2.trans h1.symm⟩
  | erroredAt k msg =>
    obtain ⟨h1, h2, _, _⟩ := processEvents_spec run_id (events.take k)
    exact ⟨h1, h2.trans h1.symm⟩

/-- C2: on clean exhaustion of the engine's event sequence, if any consumed
(non-dropped) event's payload contained the `__interrupt__` marker the run
is set to `interrupted` and the owning thread to `interrupted`; otherwise
the run is set to `completed` and the thread to `idle`.  In both cases the
persisted output is the latest tracked `values`-mode output (defaulting to
the empty dict through the source's `final_output or` idiom, which also
replaces a falsy tracked value; the last conjunct shows the persisted
output equals the tracked output whenever one was tracked and is truthy). -/
theorem exhausted_status_transitions (run_id : String) (events : List PyVal) :
    ((events.filter fun e => !_should_skip_event e).any eventHasInterrupt = true →
      (execute_run_async run_id events EngineOutcome.exhausted).statusCalls
          = [⟨"running", Option.none, Option.none⟩,
             ⟨"interrupted",
              some (pyOrEmptyDict
                ((events.filter fun e => !_should_skip_event e).foldl
                  trackFinalOutput Option.none)), Option.none⟩] ∧
      (execute_run_async run_id events EngineOutcome.exhausted).threadSets
          = ["interrupted"]) ∧
    ((events.filter fun e => !_should_skip_event e).any eventHasInterrupt = false →
      (execute_run_async run_id events EngineOutcome.exhausted).statusCalls
          = [⟨"running", Option.none, Option.none⟩,
             ⟨"completed",
              some (pyOrEmptyDict
                ((events.filter fun e => !_should_skip_event e).foldl
                  trackFinalOutput Option.none)), Option.none⟩] ∧
      (execute_run_async run_id events EngineOutcome.exhausted).threadSets
          = ["idle"]) ∧
    (∀ v,
      (events.filter fun e => !_should_skip_event e).foldl trackFinalOutput
          Option.none = some v →
      v.truthy = true →
      pyOrEmptyDict
          ((events.filter fun e => !_should_skip_event e).foldl trackFinalOutput
            Option.none) = v) := by
  obtain ⟨_, _, h3, h4⟩ := processEvents_spec run_id events
  refine ⟨?_, ?_, ?_⟩
  · intro hint
    have hi : (processEvents run_id events).hasInterrupt = true := h3.trans hint
    simp only [execute_run_async, hi, if_true, h4]
    constructor <;> trivial
  · intro hint
    have hi : (processEvents run_id events).hasInterrupt = false := h3.trans hint
    simp only [execute_run_async, hi, if_false, h4]
    constructor <;> trivial
  · intro v hv htruthy
    simp [pyOrEmptyDict, hv, htruthy]

theorem exhausted_status_transitions_witness :
    (execute_run_async "run1" [PyVal.dict [("__interrupt__", PyVal.none)]]
        EngineOutcome.exhausted).threadSets = ["interrupted"] ∧
    (execute_run_async "run1" [] EngineOutcome.exhausted).statusCalls
        = [⟨"running", Option.none, Option.none⟩,
           ⟨"completed", some (PyVal.dict []), Option.none⟩] ∧
    (execute_run_async "run1" [] EngineOutcome.exhausted).threadSets = ["idle"] := by
  have h1 := (exhausted_status_transitions "run1"
    [PyVal.dict [("__interrupt__", PyVal.none)]]).1 (by decide)
  have h2 := (exhausted_status_transitions "run1" []).2.1 (by decide)
  exact ⟨h1.2, h2.1, h2.2⟩

/-- C3: when `execute_run_async` receives a cooperative cancellation while
awaiting the next engine event, the run is set to `cancelled` with empty
output, the owning thread to `idle`, the broker is signalled of the
cancellation, and the cancellation is re-raised; and on every exit path
(completed, interrupted, cancelled or failed) the `finally` block releases
the broker resources and removes the run's Task Handle from the
registry. -/
theorem cancellation_and_cleanup (run_id : String) (events : List PyVal)
    (k : Nat) (outcome : EngineOutcome) :
    (execute_run_async run_id events (EngineOutcome.cancelledAt k)).statusCalls
        = [⟨"running", Option.none, Option.none⟩,
           ⟨"cancelled", some (PyVal.dict []), Option.none⟩] ∧
    (execute_run_async run_id events (EngineOutcome.cancelledAt k)).threadSets
        = ["idle"] ∧
    (execute_run_async run_id events (EngineOutcome.cancelledAt k)).brokerSignals
        = [BrokerSignal.cancelled] ∧
    (execute_run_async run_id events (EngineOutcome.cancelledAt k)).exitKind
        = ExecExit.cancelled ∧
    (execute_run_async run_id events outcome).cleanupCalled = true ∧
    (execute_run_async run_id events outcome).handleRemoved = true := by
  refine ⟨rfl, rfl, rfl, rfl, ?_, ?_⟩ <;>
    cases outcome <;> simp only [execute_run_async] <;> split <;> rfl

/-- C8: the mode list `execute_run_async` passes to the engine is the
user-requested modes with the `messages-tuple` alias canonicalized to
`messages` (defaulting to `["values"]` when no modes were requested), with
`updates` appended if and only if it is not already present, and the
`only_interrupt_updates` flag is set if and only if `updates` was not among
the user-requested modes. -/
theorem stream_mode_normalization (arg : StreamModeArg) :
    prepare_stream_modes arg
      = (requestedModes arg ++
          (if (requestedModes arg).contains "updates" then [] else ["updates"]),
         !(requestedModes arg).contains "updates") := by
  cases arg with
  | noneArg =>
    simp [prepare_stream_modes, requestedModes, DEFAULT_STREAM_MODES]
  | one s =>
    have : [_normalize_mode s] = requestedModes (StreamModeArg.one s) := by
      simp [_normalize_mode, requestedModes]
    simp only [prepare_stream_modes, this]
    by_cases h : "updates" ∈ requestedModes (StreamModeArg.one s) <;> simp [h]
  | many l =>
    have : l.map _normalize_mode = requestedModes (StreamModeArg.many l) := by
      simp [_normalize_mode, requestedModes]
    simp only [prepare_stream_modes, this]
    by_cases h : "updates" ∈ requestedModes (StreamModeArg.many l) <;> simp [h]

/-- C9: a failing output serialization never fails the update: when the
serializer raises on a non-`None` output, `update_run_status` still applies
the requested status transition and the error message, persisting as output
the diagnostic payload recording the failure and the original value's
type. -/
theorem serialization_failure_nonfatal (serialize : PyVal → Option PyVal)
    (status : String) (v : PyVal) (error : Option String)
    (h : serialize v = Option.none) :
    update_run_status serialize status (some v) error
      = { status := status,
          output := some (PyVal.dict
            [("error", PyVal.str "Output serialization failed"),
             ("original_type", PyVal.str (pyTypeName v))]),
          error_message := error } := by
  cases error <;> simp [update_run_status, h]

theorem serialization_failure_nonfatal_witness :
    update_run_status (fun _ => Option.none) "completed"
        (some (PyVal.obj "CustomObject")) (some "boom")
      = { status := "completed",
          output := some (PyVal.dict
            [("error", PyVal.str "Output serialization failed"),
             ("original_type", PyVal.str "CustomObject")]),
          error_message := some "boom" } :=
  serialization_failure_nonfatal (fun _ => Option.none) "completed"
    (PyVal.obj "CustomObject") (some "boom") rfl

/-! ## Endpoint layer: Run/Thread records, task registry and handlers -/

/-- A Thread record as the endpoints touch it: identifier, status
(`idle`/`busy`/`interrupted`) and metadata map. -/
structure ThreadRec where
  thread_id : String
  status : String
  metadata : List (String × String)

/-- A Run record as persisted by the Run table. -/
structure RunRec where
  run_id : String
  thread_id : String
  assistant_id : String
  status : String
  input : PyVal
  output : Option PyVal
  error_message : Option String
  user_id : String

/-- An `asyncio.Task` handle in the `active_runs` registry; only its
done/cancel surface matters to the endpoints. -/
structure TaskRec where
  done : Bool

/-- The persistent and in-process state the endpoints operate on: the
Thread and Run tables plus the `active_runs` task registry. -/
structure DB where
  threads : List ThreadRec
  runs : List RunRec
  active_runs : List (String × TaskRec)

/-- The thread lookup `SELECT Thread WHERE thread_id = tid` (first match). -/
def findThread (db : DB) (tid : String) : Option ThreadRec :=
  db.threads.find? fun t => t.thread_id = tid

/-- The run lookup every endpoint performs:
`SELECT Run WHERE run_id ∧ thread_id ∧ user_id` (first match). -/
def findRun (db : DB) (rid tid uid : String) : Option RunRec :=
  db.runs.find? fun r => r.run_id = rid ∧ r.thread_id = tid ∧ r.user_id = uid

/-- The registry lookup `active_runs.get(run_id)`. -/
def findTask (db : DB) (rid : String) : Option TaskRec :=
  (db.active_runs.find? fun p => p.1 = rid).map Prod.snd

/-- Python dict assignment `d[k] = v` preserving insertion order of an
existing key. -/
def taskSet (m : List (String × TaskRec)) (k : String) (v : TaskRec) :
    List (String × TaskRec) :=
  if m.any fun p => p.1 = k then
    m.map fun p => if p.1 = k then (k, v) else p
  else m ++ [(k, v)]

/-- Python dict `md.update(patch)` on string-to-string metadata. -/
def dictUpdate (m patch : List (String × String)) : List (String × String) :=
  patch.foldl
    (fun acc p =>
      if acc.any fun q => q.1 = p.1 then
        acc.map fun q => if q.1 = p.1 then p else q
      else acc ++ [p])
    m

/-- Translation of `set_thread_status` (runs.py lines 72-79): update the
status column of every thread row matching the id. -/
def set_thread_status (db : DB) (tid status : String) : DB :=
  { db with
      threads := db.threads.map fun t =>
        if t.thread_id = tid then { t with status := status } else t }

/-- Translation of `update_thread_metadata` (runs.py lines 82-104):
read-modify-write of the thread's metadata with the assistant and graph
ids; raises 404 when the thread does not exist. -/
def update_thread_metadata (db : DB) (tid aid gid : String) : Except Nat DB :=
  match findThread db tid with
  | Option.none => Except.error 404
  | some _ =>
    Except.ok
      { db with
          threads := db.threads.map fun t =>
            if t.thread_id = tid then
              { t with
                  metadata := dictUpdate t.metadata
                    [("assistant_id", aid), ("graph_id", gid)] }
            else t }

/-- External collaborators of the create endpoints: the graphs known to the
LangGraph service, the Assistant table (assistant id to graph id), and the
`resolve_assistant_id` utility. -/
structure Env where
  graphs : List String
  assistants : List (String × String)
  resolve : String → List String → String

/-- The assistant lookup `SELECT Assistant WHERE assistant_id = aid`,
yielding its graph id. -/
def findAssistant (env : Env) (aid : String) : Option String :=
  (env.assistants.find? fun p => p.1 = aid).map Prod.snd

/-- The request body of the create endpoints restricted to the fields the
verified logic reads. -/
structure RunCreate where
  assistant_id : String
  input : Option PyVal
  command : Option (List (String × PyVal))
  on_disconnect : Option String

/-- The resume-command test of runs.py lines 117 and 243:
`request.command and request.command.get("resume") is not None` — the
command dict is truthy (non-empty) and holds a `resume` key whose value is
not `None`. -/
def hasResumeCommand (cmd : Option (List (String × PyVal))) : Bool :=
  match cmd with
  | Option.none => false
  | some entries =>
    if entries.isEmpty then false
    else
      match lookupKey "resume" entries with
      | some PyVal.none => false
      | some _ => true
      | Option.none => false

/-- Result of a create endpoint: an HTTP error with the state as committed
so far, or success with the new state and the persisted Run record (at
which point the background task has been registered in `active_runs`). -/
inductive CreateResult where
  | err (code : Nat) (db : DB)
  | ok (db : DB) (run : RunRec)

/-- The `RunORM(...)` row inserted by the create endpoints: `run_id`
explicitly set, the given initial status, `request.input or` the empty
dict, `output` and `error_message` null. -/
def newRunRec (run_id thread_id assistant_id status : String) (input : PyVal)
    (user : String) : RunRec :=
  { run_id := run_id, thread_id := thread_id, assistant_id := assistant_id,
    status := status, input := input, output := Option.none,
    error_message := Option.none, user_id := user }

/-- The body shared verbatim by `create_run` (runs.py lines 128-230) and
`create_and_stream_run` (runs.py lines 254-351) after the resume check:
resolve the assistant id, 404 when the Assistant row or its graph is
missing, mark the thread busy, merge the assistant/graph ids into the
thread metadata (404 if the thread is missing), insert the Run row with
the endpoint's initial status, and register the background task handle.
`run_id` stands for the freshly drawn `uuid4`. -/
def createRunCore (env : Env) (db : DB) (thread_id run_id : String)
    (req : RunCreate) (user : String) (initialStatus : String) : CreateResult :=
  match findAssistant env (env.resolve req.assistant_id env.graphs) with
  | Option.none => CreateResult.err 404 db
  | some graph_id =>
    if env.graphs.contains graph_id then
      match update_thread_metadata (set_thread_status db thread_id "busy")
          thread_id (env.resolve req.assistant_id env.graphs) graph_id with
      | Except.error code =>
        CreateResult.err code (set_thread_status db thread_id "busy")
      | Except.ok db2 =>
        CreateResult.ok
          { db2 with
              runs := db2.runs ++
                [newRunRec run_id thread_id
                  (env.resolve req.assistant_id env.graphs) initialStatus
                  (pyOrEmptyDict req.input) user],
              active_runs := taskSet db2.active_runs run_id { done := false } }
          (newRunRec run_id thread_id (env.resolve req.assistant_id env.graphs)
            initialStatus (pyOrEmptyDict req.input) user)
    else CreateResult.err 404 db

/-- Translation of `create_run` (runs.py lines 107-230): the early resume
validation (404 when the thread is missing, 400 when it is not
`interrupted`) followed by the shared body inserting the Run with status
`pending`. -/
def create_run (env : Env) (db : DB) (thread_id run_id : String)
    (req : RunCreate) (user : String) : CreateResult :=
  if hasResumeCommand req.command then
    match findThread db thread_id with
    | Option.none => CreateResult.err 404 db
    | some t =>
      if t.status = "interrupted" then
        createRunCore env db thread_id run_id req user "pending"
      else CreateResult.err 400 db
  else createRunCore env db thread_id run_id req user "pending"

/-- Translation of `create_and_stream_run` (runs.py lines 233-373): the
same early resume validation and shared body, but the Run row is inserted
with initial status `streaming`. -/
def create_and_stream_run (env : Env) (db : DB) (thread_id run_id : String)
    (req : RunCreate) (user : String) : CreateResult :=
  if hasResumeCommand req.command then
    match findThread db thread_id with
    | Option.none => CreateResult.err 404 db
    | some t =>
      if t.status = "interrupted" then
        createRunCore env db thread_id run_id req user "streaming"
      else CreateResult.err 400 db
  else createRunCore env db thread_id run_id req user "streaming"

/-- Translation of `get_run` (runs.py lines 376-405). -/
def get_run (db : DB) (thread_id run_id user : String) : Except Nat RunRec :=
  match findRun db run_id thread_id user with
  | Option.none => Except.error 404
  | some r => Except.ok r

/-- The streaming response body chosen by `stream_run`: either the single
terminal end event with no replay and no broker subscription, or the
replay-then-live stream driven by the streaming service with the client's
last seen event id. -/
inductive StreamResponse where
  | terminalOnly
  | replayLive (lastEventId : Option String)

/-- Translation of `stream_run` (runs.py lines 548-610): 404 when the run
is missing or not owned; when the persisted status is in
`["completed", "failed", "cancelled"]` the response is the single terminal
end event; otherwise the streaming service replays stored events after the
`Last-Event-ID` header and switches to live delivery. -/
def stream_run (db : DB) (thread_id run_id user : String)
    (lastEventId : Option String) : Except Nat StreamResponse :=
  match findRun db run_id thread_id user with
  | Option.none => Except.error 404
  | some r =>
    if ["completed", "failed", "cancelled"].contains r.status then
      Except.ok StreamResponse.terminalOnly
    else Except.ok (StreamResponse.replayLive lastEventId)

/-- The `UPDATE Run SET status = ... WHERE run_id = ...` statement used by
the cancel/update endpoints: keyed on `run_id` alone. -/
def setRunStatus (db : DB) (run_id status : String) : DB :=
  { db with
      runs := db.runs.map fun r =>
        if r.run_id = run_id then { r with status := status } else r }

/-- Translation of `cancel_run_endpoint` (runs.py lines 613-693): 404 when
the run is missing or not owned; for `action = "interrupt"` the streaming
service's cooperative interrupt is requested and the Run row (keyed by
`run_id` alone) is set to `interrupted`; otherwise the hard cancel is
requested and the row is set to `cancelled`.  With `wait = 1` the endpoint
additionally awaits the task handle, suppressing its outcome (no state
effect here).  The refreshed Run row is reloaded and returned. -/
def cancel_run_endpoint (db : DB) (thread_id run_id user : String)
    (_wait : Nat) (action : String) : Except Nat (DB × RunRec) :=
  match findRun db run_id thread_id user with
  | Option.none => Except.error 404
  | some _ =>
    let db1 : DB :=
      if action = "interrupt" then setRunStatus db run_id "interrupted"
      else setRunStatus db run_id "cancelled"
    match findRun db1 run_id thread_id user with
    | Option.none => Except.error 404
    | some r => Except.ok (db1, r)

/-- The active statuses of the delete endpoint (runs.py line 984). -/
def activeStatuses : List String := ["pending", "running", "streaming"]

/-- Result of `delete_run`: an HTTP error with the untouched state, or 204
with the new state, whether the streaming service's cancel was invoked on
the active run, and whether a residual not-done task handle had `cancel()`
called on it. -/
inductive DeleteResult where
  | err (code : Nat) (db : DB)
  | noContent (db : DB) (cancelRunCalled : Bool) (taskCancelCalled : Bool)

/-- The `DELETE Run WHERE run_id ∧ thread_id ∧ user_id` statement of
`delete_run` (runs.py lines 1001-1008). -/
def deleteRunRecord (db : DB) (run_id thread_id user : String) : DB :=
  { db with
      runs := db.runs.filter fun x =>
        !(x.run_id = run_id ∧ x.thread_id = thread_id ∧ x.user_id = user : Bool) }

/-- The registry removal `active_runs.pop(run_id, None)` (runs.py line 1011). -/
def popTask (db : DB) (run_id : String) : DB :=
  { db with active_runs := db.active_runs.filter fun p => !(p.1 = run_id : Bool) }

/-- Translation of `delete_run` (runs.py lines 952-1016): 404 when the run
is missing or not owned; 409 when its status is active
(`pending`/`running`/`streaming`) and `force = 0`; when forcing an active
run, the streaming service's cancel is invoked (and the task awaited)
first — recorded in the first flag of the 204 result; then the Run row is
deleted, the task handle is popped from `active_runs` and `cancel()` is
called on it when it exists and is not done — recorded in the second
flag. -/
def delete_run (db : DB) (thread_id run_id user : String) (force : Nat) :
    DeleteResult :=
  match findRun db run_id thread_id user with
  | Option.none => DeleteResult.err 404 db
  | some r =>
    if activeStatuses.contains r.status ∧ force = 0 then DeleteResult.err 409 db
    else
      DeleteResult.noContent
        (popTask (deleteRunRecord db run_id thread_id user) run_id)
        (decide (force ≠ 0 ∧ activeStatuses.contains r.status))
        (match findTask (deleteRunRecord db run_id thread_id user) run_id with
          | some t => !t.done
          | Option.none => false)

theorem find?_map_preserve {α : Type} (f : α → α) (p : α → Bool)
    (hp : ∀ x, p (f x) = p x) :
    ∀ (l : List α) (r : α), l.find? p = some r → (l.map f).find? p = some (f r) := by
  intro l
  induction l with
  | nil => intro r h; simp at h
  | cons a as ih =>
    intro r h
    by_cases ha : p a = true
    · rw [List.find?_cons_of_pos _ ha] at h
      injection h with h
      subst h
      simp only [List.map_cons]
      rw [List.find?_cons_of_pos _ ((hp a).trans ha)]
    · have ha2 : p a = false := by simpa using ha
      rw [List.find?_cons_of_neg _ (by simp [ha2])] at h
      simp only [List.map_cons]
      rw [List.find?_cons_of_neg _ (by simp [hp a, ha2])]
      exact ih r h

theorem find?_filter_not {α : Type} (p : α → Bool) (l : List α) :
    (l.filter fun x => !(p x)).find? p = Option.none := by
  induction l with
  | nil => rfl
  | cons a as ih =>
    by_cases h : p a = true
    · simp [List.filter_cons, h, ih]
    · have h2 : p a = false := by simpa using h
      simp only [List.filter_cons, h2, Bool.not_false, if_true]
      rw [List.find?_cons_of_neg _ (by simp [h2])]
      exact ih

theorem find?_append_of_none {α : Type} (p : α → Bool) (l1 l2 : List α)
    (h : l1.find? p = Option.none) : (l1 ++ l2).find? p = l2.find? p := by
  induction l1 with
  | nil => rfl
  | cons a as ih =>
    by_cases ha : p a = true
    · rw [List.find?_cons_of_pos _ ha] at h; cases h
    · have ha2 : p a = false := by simpa using ha
      rw [List.find?_cons_of_neg _ (by simp [ha2])] at h
      rw [List.cons_append, List.find?_cons_of_neg _ (by simp [ha2])]
      exact ih h

/-- C4: for both create endpoints, a request supplying a resume command is
rejected with 404 when the target thread does not exist and with 400 when
the thread's persisted status is not `interrupted`; in both cases the
returned state is the untouched input state, so no Run record has been
persisted and no background task has been registered. -/
theorem resume_validation_rejects_early (env : Env) (db : DB)
    (thread_id run_id : String) (req : RunCreate) (user : String)
    (h : hasResumeCommand req.command = true) :
    (findThread db thread_id = Option.none →
      create_run env db thread_id run_id req user = CreateResult.err 404 db ∧
      create_and_stream_run env db thread_id run_id req user
        = CreateResult.err 404 db) ∧
    (∀ t, findThread db thread_id = some t → t.status ≠ "interrupted" →
      create_run env db thread_id run_id req user = CreateResult.err 400 db ∧
      create_and_stream_run env db thread_id run_id req user
        = CreateResult.err 400 db) := by
  constructor
  · intro hnone
    constructor <;> simp [create_run, create_and_stream_run, h, hnone]
  · intro t ht hstatus
    constructor <;> simp [create_run, create_and_stream_run, h, ht, hstatus]

/-- A sample environment with one graph and one assistant mapped to it. -/
def envA : Env :=
  { graphs := ["g1"], assistants := [("a1", "g1")], resolve := fun s _ => s }

/-- A sample thread in status `idle`. -/
def threadIdle : ThreadRec := { thread_id := "t1", status := "idle", metadata := [] }

/-- A sample state holding only `threadIdle`. -/
def dbThreadIdle : DB := { threads := [threadIdle], runs := [], active_runs := [] }

/-- The empty state. -/
def dbEmpty : DB := { threads := [], runs := [], active_runs := [] }

/-- A sample create request supplying a resume command. -/
def reqWithResume : RunCreate :=
  { assistant_id := "a1", input := Option.none,
    command := some [("resume", PyVal.str "go")], on_disconnect := Option.none }

theorem resume_validation_rejects_early_witness :
    create_run envA dbThreadIdle "t1" "r1" reqWithResume "u1"
      = CreateResult.err 400 dbThreadIdle ∧
    create_and_stream_run envA dbEmpty "t1" "r1" reqWithResume "u1"
      = CreateResult.err 404 dbEmpty := by
  constructor
  · exact ((resume_validation_rejects_early envA dbThreadIdle "t1" "r1" reqWithResume
      "u1" (by decide)).2 threadIdle rfl (by decide)).1
  · exact ((resume_validation_rejects_early envA dbEmpty "t1" "r1" reqWithResume
      "u1" (by decide)).1 rfl).2

/-- C5 counterexample: a run whose persisted status is `interrupted` — a
terminal status of the specification's state machine — does not get the
single terminal end event: `stream_run` takes the replay-then-live branch,
refuting the claim at this concrete input. -/
theorem stream_terminal_counterexample :
    stream_run
        { threads := [],
          runs := [{ run_id := "r1", thread_id := "t1", assistant_id := "a1",
                     status := "interrupted", input := PyVal.dict [],
                     output := Option.none, error_message := Option.none,
                     user_id := "u1" }],
          active_runs := [] }
        "t1" "r1" "u1" Option.none
      = Except.ok (StreamResponse.replayLive Option.none) ∧
    (Except.ok (StreamResponse.replayLive Option.none)
        : Except Nat StreamResponse) ≠ Except.ok StreamResponse.terminalOnly := by
  constructor
  · rfl
  · intro hcontra
    injection hcontra with hcontra
    cases hcontra

/-- C5 amended: `stream_run` emits the single terminal end event (no
replay, no live subscription) exactly when the run's persisted status is
one of `completed`, `failed`, `cancelled`; for every other status —
including `interrupted`, which the spec's state machine counts as
terminal — it replays stored events after the client's last seen id and
switches to live delivery. -/
theorem stream_terminal_short_circuit (db : DB) (thread_id run_id user : String)
    (lastEventId : Option String) (r : RunRec)
    (h : findRun db run_id thread_id user = some r) :
    (["completed", "failed", "cancelled"].contains r.status = true →
      stream_run db thread_id run_id user lastEventId
        = Except.ok StreamResponse.terminalOnly) ∧
    (["completed", "failed", "cancelled"].contains r.status = false →
      stream_run db thread_id run_id user lastEventId
        = Except.ok (StreamResponse.replayLive lastEventId)) := by
  constructor <;> intro hc <;> simp only [stream_run, h, hc] <;> rfl

/-- A sample run record with terminal status `completed`. -/
def runCompleted : RunRec :=
  { run_id := "r1", thread_id := "t1", assistant_id := "a1",
    status := "completed", input := PyVal.dict [],
    output := Option.none, error_message := Option.none, user_id := "u1" }

/-- A sample state holding only `runCompleted`. -/
def dbRunCompleted : DB := { threads := [], runs := [runCompleted], active_runs := [] }

theorem stream_terminal_short_circuit_witness :
    stream_run dbRunCompleted "t1" "r1" "u1" (some "r1_event_2")
      = Except.ok StreamResponse.terminalOnly :=
  (stream_terminal_short_circuit dbRunCompleted "t1" "r1" "u1" (some "r1_event_2")
    runCompleted rfl).1 rfl

theorem findRun_after_status_map (db : DB) (run_id thread_id user status : String)
    (r0 : RunRec) (h : findRun db run_id thread_id user = some r0) :
    findRun (setRunStatus db run_id status) run_id thread_id user
      = some { r0 with status := status } := by
  unfold findRun at h ⊢
  unfold setRunStatus
  have hrid : r0.run_id = run_id := by
    have hp := List.find?_some h
    simp only [decide_eq_true_eq] at hp
    exact hp.1
  have hmap := find?_map_preserve
    (fun r : RunRec => if r.run_id = run_id then { r with status := status } else r)
    (fun r : RunRec =>
      decide (r.run_id = run_id ∧ r.thread_id = thread_id ∧ r.user_id = user))
    (by intro x; by_cases hx : x.run_id = run_id <;> simp [hx])
    db.runs r0 h
  simpa [hrid] using hmap

theorem cancel_run_endpoint_cancel_ok (db : DB) (thread_id run_id user : String)
    (wait : Nat) (r0 : RunRec) (h : findRun db run_id thread_id user = some r0) :
    cancel_run_endpoint db thread_id run_id user wait "cancel"
      = Except.ok (setRunStatus db run_id "cancelled",
          { r0 with status := "cancelled" }) := by
  have hstep := findRun_after_status_map db run_id thread_id user "cancelled" r0 h
  unfold cancel_run_endpoint
  rw [h]
  show (match findRun (setRunStatus db run_id "cancelled") run_id thread_id user with
        | Option.none => (Except.error 404 : Except Nat (DB × RunRec))
        | some r => Except.ok (setRunStatus db run_id "cancelled", r))
      = Except.ok (setRunStatus db run_id "cancelled",
          { r0 with status := "cancelled" })
  rw [hstep]

/-- C6: the cancel endpoint with `action = "cancel"` persists status
`cancelled` on the Run record whether or not a live Task Handle is
registered (the state's `active_runs` component is arbitrary and the
response is independent of it), and a second cancel on the resulting state
succeeds without error and leaves the persisted status `cancelled`. -/
theorem cancel_idempotent_handle_independent (db : DB)
    (thread_id run_id user : String) (wait wait2 : Nat)
    (tasks : List (String × TaskRec)) (r0 : RunRec)
    (h : findRun db run_id thread_id user = some r0) :
    cancel_run_endpoint db thread_id run_id user wait "cancel"
        = Except.ok (setRunStatus db run_id "cancelled",
            { r0 with status := "cancelled" }) ∧
    findRun (setRunStatus db run_id "cancelled") run_id thread_id user
        = some { r0 with status := "cancelled" } ∧
    cancel_run_endpoint (setRunStatus db run_id "cancelled") thread_id run_id
        user wait2 "cancel"
        = Except.ok
            (setRunStatus (setRunStatus db run_id "cancelled") run_id "cancelled",
             { r0 with status := "cancelled" }) ∧
    cancel_run_endpoint { db with active_runs := tasks } thread_id run_id user
        wait "cancel"
        = Except.ok
            ({ setRunStatus db run_id "cancelled" with active_runs := tasks },
             { r0 with status := "cancelled" }) := by
  have hstep := findRun_after_status_map db run_id thread_id user "cancelled" r0 h
  refine ⟨cancel_run_endpoint_cancel_ok db thread_id run_id user wait r0 h, hstep,
    ?_, ?_⟩
  · have h2 := cancel_run_endpoint_cancel_ok (setRunStatus db run_id "cancelled")
      thread_id run_id user wait2 { r0 with status := "cancelled" } hstep
    exact h2
  · exact cancel_run_endpoint_cancel_ok { db with active_runs := tasks }
      thread_id run_id user wait r0 h

/-- A sample run record in active status `pending`. -/
def runPending : RunRec :=
  { run_id := "r1", thread_id := "t1", assistant_id := "a1",
    status := "pending", input := PyVal.dict [],
    output := Option.none, error_message := Option.none, user_id := "u1" }

/-- A sample state holding `runPending` and a live task handle for it. -/
def dbRunPending : DB :=
  { threads := [], runs := [runPending],
    active_runs := [("r1", { done := false })] }

theorem cancel_idempotent_handle_independent_witness :
    cancel_run_endpoint dbRunPending "t1" "r1" "u1" 0 "cancel"
        = Except.ok (setRunStatus dbRunPending "r1" "cancelled",
            { runPending with status := "cancelled" }) ∧
    cancel_run_endpoint (setRunStatus dbRunPending "r1" "cancelled") "t1" "r1"
        "u1" 0 "cancel"
        = Except.ok
            (setRunStatus (setRunStatus dbRunPending "r1" "cancelled") "r1"
              "cancelled",
             { runPending with status := "cancelled" }) ∧
    cancel_run_endpoint { dbRunPending with active_runs := [] } "t1" "r1" "u1"
        0 "cancel"
        = Except.ok
            ({ setRunStatus dbRunPending "r1" "cancelled" with active_runs := [] },
             { runPending with status := "cancelled" }) := by
  have h := cancel_idempotent_handle_independent dbRunPending "t1" "r1" "u1" 0 0
    [] runPending rfl
  exact ⟨h.1, h.2.2.1, h.2.2.2⟩

/-- C7: for an existing run, deletion is rejected with 409 (and the state
untouched) when the run's status is active (`pending`/`running`/
`streaming`) and `force = 0`; with `force = 1` an active run is cancelled
first (the cancel flag of the 204 result is set) and then deleted; and on
every successful deletion the persisted record is gone (a subsequent get
returns 404), the residual task handle is removed from the registry, and
`cancel()` was called on it whenever it existed and was not yet done. -/
theorem delete_run_policy (db : DB) (thread_id run_id user : String)
    (force : Nat) (r : RunRec)
    (h : findRun db run_id thread_id user = some r) :
    (activeStatuses.contains r.status = true → force = 0 →
      delete_run db thread_id run_id user force = DeleteResult.err 409 db) ∧
    (activeStatuses.contains r.status = true → force = 1 →
      ∃ db2 tc, delete_run db thread_id run_id user force
          = DeleteResult.noContent db2 true tc) ∧
    (∀ db2 c tc,
      delete_run db thread_id run_id user force = DeleteResult.noContent db2 c tc →
      get_run db2 thread_id run_id user = Except.error 404 ∧
      findTask db2 run_id = Option.none ∧
      (∀ t, findTask db run_id = some t → t.done = false → tc = true)) := by
  have hdel : findRun (deleteRunRecord db run_id thread_id user) run_id thread_id
      user = Option.none := by
    unfold findRun deleteRunRecord
    exact find?_filter_not _ db.runs
  have hpop : findTask (popTask (deleteRunRecord db run_id thread_id user) run_id)
      run_id = Option.none := by
    unfold findTask popTask
    rw [find?_filter_not]
    rfl
  refine ⟨?_, ?_, ?_⟩
  · intro hc hf
    simp only [delete_run, h]
    rw [if_pos ⟨hc, hf⟩]
  · intro hc hf
    subst hf
    simp only [delete_run, h]
    rw [if_neg (by simp)]
    rw [show decide ((1 : Nat) ≠ 0 ∧ activeStatuses.contains r.status = true)
      = true from by simp only [decide_eq_true_eq]; exact ⟨by decide, hc⟩]
    exact ⟨_, _, rfl⟩
  · intro db2 c tc hres
    simp only [delete_run, h] at hres
    by_cases hcond : activeStatuses.contains r.status = true ∧ force = 0
    · rw [if_pos hcond] at hres
      cases hres
    · rw [if_neg hcond] at hres
      injection hres with hdb hc2 htc
      subst hdb
      refine ⟨?_, ?_, ?_⟩
      · unfold get_run
        have hnone : findRun
            (popTask (deleteRunRecord db run_id thread_id user) run_id) run_id
            thread_id user = Option.none := hdel
        rw [hnone]
      · exact hpop
      · intro t ht hdone
        rw [← htc]
        have ht2 : findTask (deleteRunRecord db run_id thread_id user) run_id
            = some t := ht
        simp only [ht2]
        rw [hdone]
        rfl

theorem delete_run_policy_witness :
    delete_run dbRunPending "t1" "r1" "u1" 0 = DeleteResult.err 409 dbRunPending ∧
    get_run (popTask (deleteRunRecord dbRunPending "r1" "t1" "u1") "r1") "t1"
        "r1" "u1" = Except.error 404 ∧
    findTask (popTask (deleteRunRecord dbRunPending "r1" "t1" "u1") "r1") "r1"
        = Option.none := by
  have h0 := delete_run_policy dbRunPending "t1" "r1" "u1" 0 runPending rfl
  have h1 := delete_run_policy dbRunPending "t1" "r1" "u1" 1 runPending rfl
  have h2 := h1.2.2 _ _ _ rfl
  exact ⟨h0.1 (by decide) rfl, h2.1, h2.2.1⟩

theorem update_thread_metadata_runs (db : DB) (tid aid gid : String) (db2 : DB)
    (h : update_thread_metadata db tid aid gid = Except.ok db2) :
    db2.runs = db.runs := by
  unfold update_thread_metadata at h
  cases hft : findThread db tid with
  | none => rw [hft] at h; cases h
  | some t =>
    rw [hft] at h
    injection h with h
    subst h
    rfl

theorem createRunCore_ok (env : Env) (db : DB) (thread_id run_id : String)
    (req : RunCreate) (user : String) (s : String) (db2 : DB) (run : RunRec)
    (hok : createRunCore env db thread_id run_id req user s
        = CreateResult.ok db2 run) :
    run.status = s ∧ run.run_id = run_id ∧ run.thread_id = thread_id ∧
    run.user_id = user ∧ db2.runs = db.runs ++ [run] := by
  unfold createRunCore at hok
  cases hfa : findAssistant env (env.resolve req.assistant_id env.graphs) with
  | none => rw [hfa] at hok; cases hok
  | some gid =>
    simp only [hfa] at hok
    by_cases hg : env.graphs.contains gid = true
    · rw [if_pos hg] at hok
      cases hmt : update_thread_metadata (set_thread_status db thread_id "busy")
          thread_id (env.resolve req.assistant_id env.graphs) gid with
      | error code => rw [hmt] at hok; cases hok
      | ok dbm =>
        rw [hmt] at hok
        injection hok with hdb hrun
        subst hdb
        subst hrun
        refine ⟨rfl, rfl, rfl, rfl, ?_⟩
        have hr := update_thread_metadata_runs (set_thread_status db thread_id
          "busy") thread_id (env.resolve req.assistant_id env.graphs) gid dbm hmt
        show dbm.runs ++ [_] = db.runs ++ [_]
        rw [hr]
        rfl
    · rw [if_neg hg] at hok
      cases hok

/-- C10: every run successfully created by the create-and-stream endpoint
is persisted with initial status `streaming` — a value outside the spec's
`pending → running → terminal` machine — and this status is classified as
active by the delete endpoint, so deleting such a run without force is
rejected with 409 and the state is left untouched. -/
theorem streaming_run_initial_status (env : Env) (db : DB)
    (thread_id run_id : String) (req : RunCreate) (user : String)
    (db2 : DB) (run : RunRec)
    (hfresh : findRun db run_id thread_id user = Option.none)
    (hok : create_and_stream_run env db thread_id run_id req user
        = CreateResult.ok db2 run) :
    run.status = "streaming" ∧
    findRun db2 run_id thread_id user = some run ∧
    delete_run db2 thread_id run_id user 0 = DeleteResult.err 409 db2 := by
  have hcore : createRunCore env db thread_id run_id req user "streaming"
      = CreateResult.ok db2 run := by
    unfold create_and_stream_run at hok
    by_cases hres : hasResumeCommand req.command = true
    · rw [if_pos hres] at hok
      cases hft : findThread db thread_id with
      | none => rw [hft] at hok; cases hok
      | some t =>
        simp only [hft] at hok
        by_cases hs : t.status = "interrupted"
        · rwa [if_pos hs] at hok
        · rw [if_neg hs] at hok; cases hok
    · rw [if_neg hres] at hok
      exact hok
  obtain ⟨hst, hrid, htid, huid, hruns⟩ :=
    createRunCore_ok env db thread_id run_id req user "streaming" db2 run hcore
  have hfind : findRun db2 run_id thread_id user = some run := by
    unfold findRun at hfresh ⊢
    rw [hruns, find?_append_of_none _ _ _ hfresh]
    exact List.find?_cons_of_pos _ (by simp [hrid, htid, huid])
  have hact : activeStatuses.contains run.status = true := by
    rw [hst]
    rfl
  refine ⟨hst, hfind, ?_⟩
  simp only [delete_run, hfind]
  rw [if_pos ⟨hact, by trivial⟩]

/-- A sample create request with no resume command. -/
def reqPlain : RunCreate :=
  { assistant_id := "a1", input := Option.none, command := Option.none,
    on_disconnect := Option.none }

/-- The Run row `create_and_stream_run` inserts for `reqPlain`. -/
def runStreaming : RunRec :=
  newRunRec "r2" "t1" "a1" "streaming" (PyVal.dict []) "u1"

/-- The thread record after the create endpoint marked it busy and merged
the assistant/graph metadata. -/
def threadBusy : ThreadRec :=
  { thread_id := "t1", status := "busy",
    metadata := [("assistant_id", "a1"), ("graph_id", "g1")] }

/-- The state after `create_and_stream_run` succeeds on `dbThreadIdle`. -/
def dbAfterStream : DB :=
  { threads := [threadBusy], runs := [runStreaming],
    active_runs := [("r2", { done := false })] }

theorem streaming_run_initial_status_witness :
    runStreaming.status = "streaming" ∧
    findRun dbAfterStream "r2" "t1" "u1" = some runStreaming ∧
    delete_run dbAfterStream "t1" "r2" "u1" 0
      = DeleteResult.err 409 dbAfterStream :=
  streaming_run_initial_status envA dbThreadIdle "t1" "r2" reqPlain "u1"
    dbAfterStream runStreaming rfl rfl

end Aegra
